import Mathlib

/-!
Shallow embedding of the access-control and resilience core of
github-actions-mcp (src/src/permissions.ts, src/unnamed/part_002) and
proofs about the specification claims.

JavaScript strings are modelled as Lean `String`; `String.prototype.split("/")`
is modelled by `splitSlash` on the underlying character list; a possibly
`undefined` JavaScript value is an `Option`; a function that can `throw`
returns `Except String`.
-/

namespace GhaMcp

/-- Model of JavaScript `s.split("/")` on character lists: splits at every
`'/'`, keeping empty segments, and yields `[[]]` on the empty input. -/
def splitSlash : List Char → List (List Char)
  | [] => [[]]
  | c :: cs =>
    let rest := splitSlash cs
    if c = '/' then [] :: rest
    else (c :: rest.headD []) :: rest.tail

/-- Model of JavaScript `repo.split("/")` at the `String` level. -/
def jsSplit (s : String) : List String :=
  (splitSlash s.data).map String.mk

/-- A string containing no `'/'` separator. -/
def noSlash (s : String) : Prop := ∀ c ∈ s.data, c ≠ '/'

/-- The four permission levels of `src/src/permissions.ts`. -/
inductive PermissionLevel
  | read
  | trigger
  | cancel
  | admin
deriving DecidableEq

/-- String form of a permission level, as interpolated into error messages. -/
def PermissionLevel.str : PermissionLevel → String
  | .read => "read"
  | .trigger => "trigger"
  | .cancel => "cancel"
  | .admin => "admin"

/-- The `permissions` block of the `Config` interface (src/unnamed/part_001). -/
structure Permissions where
  read : Bool
  trigger : Bool
  cancel : Bool
  admin : Bool
  whitelist_repos : List String
  blacklist_repos : List String

/-- The parts of `Config` consumed by the permission module. -/
structure Config where
  bypass_permissions : Bool
  permissions : Permissions

/-- Indexing `config.permissions[level]` for the four boolean flags. -/
def Permissions.flag (p : Permissions) : PermissionLevel → Bool
  | .read => p.read
  | .trigger => p.trigger
  | .cancel => p.cancel
  | .admin => p.admin

/-- Error message thrown by `checkPermission`. -/
def permissionDeniedMsg (level : PermissionLevel) : String :=
  "Permission denied: \"" ++ level.str ++ "\" access is not enabled. " ++
    "Enable it in config or use --bypass-permissions."

/-- Translation of `checkPermission` (src/src/permissions.ts, lines 12-24). -/
def checkPermission (config : Config) (level : PermissionLevel) : Except String Unit :=
  if config.bypass_permissions then .ok ()
  else if !(config.permissions.flag level) then .error (permissionDeniedMsg level)
  else .ok ()

/-- Translation of `matchesAny` (src/src/permissions.ts, lines 64-86):
exact match, org wildcard `org/\x2a`, repo wildcard `\x2a/repo`, where JavaScript
array destructuring of the split result is modelled with `Option`. -/
def matchesAny (repo : String) (patterns : List String) : Bool :=
  let parts := jsSplit repo
  let owner := parts[0]?
  let repoName := parts[1]?
  patterns.any fun pattern =>
    pattern == repo
    || ((jsSplit pattern)[1]? == some "*" && (jsSplit pattern)[0]? == owner)
    || ((jsSplit pattern)[0]? == some "*" && (jsSplit pattern)[1]? == repoName)

/-- Error message for a blacklisted repository. -/
def blacklistedMsg (repo : String) : String :=
  "Access denied: repository \"" ++ repo ++ "\" is blacklisted."

/-- Error message for a repository outside a non-empty whitelist. -/
def notWhitelistedMsg (repo : String) : String :=
  "Access denied: repository \"" ++ repo ++ "\" is not in the whitelist."

/-- Translation of `checkRepoAccess` (src/src/permissions.ts, lines 29-55). -/
def checkRepoAccess (config : Config) (repo : String) : Except String Unit :=
  if config.bypass_permissions then .ok ()
  else
    let whitelist := config.permissions.whitelist_repos
    let blacklist := config.permissions.blacklist_repos
    if decide (blacklist.length > 0) && matchesAny repo blacklist then
      .error (blacklistedMsg repo)
    else if whitelist.length == 0 then .ok ()
    else if !(matchesAny repo whitelist) then .error (notWhitelistedMsg repo)
    else .ok ()

/-- Error message thrown by `parseRepo`. -/
def invalidRepoMsg (repo : String) : String :=
  "Invalid repo format: \"" ++ repo ++ "\". Expected \"owner/repo\""

/-- Translation of `parseRepo` (src/unnamed/part_002, lines 41-47): the first two
segments of `repo.split("/")`, rejecting a falsy (missing or empty) owner or name. -/
def parseRepo (repo : String) : Except String (String × String) :=
  let parts := jsSplit repo
  match parts[0]?, parts[1]? with
  | some owner, some repoName =>
    if owner == "" || repoName == "" then .error (invalidRepoMsg repo)
    else .ok (owner, repoName)
  | _, _ => .error (invalidRepoMsg repo)

/-- Guard prefix shared by every tool handler in src/unnamed/part_002:
`checkPermission`, then `checkRepoAccess`, then `parseRepo`, in that order. -/
def toolGuard (config : Config) (level : PermissionLevel) (repo : String) :
    Except String (String × String) :=
  match checkPermission config level with
  | .error e => .error e
  | .ok _ =>
    match checkRepoAccess config repo with
    | .error e => .error e
    | .ok _ => parseRepo repo

/-- Constructor parameters of `CircuitBreaker` (src/src/permissions.ts, lines 118-122). -/
structure BreakerConfig where
  threshold : Nat
  resetTimeMs : Int
  cooldownMs : Int

/-- The default `CircuitBreaker` parameters: threshold 3, reset window 60s,
cooldown 300s. -/
def defaultBreakerConfig : BreakerConfig := ⟨3, 60000, 300000⟩

/-- Private fields of a `CircuitBreaker` instance: `failures`, `lastFailure`,
`isOpen`. Timestamps are milliseconds as `Int`. -/
structure BreakerState where
  failures : Nat
  lastFailure : Int
  isOpen : Bool

/-- Initial breaker state: `failures = 0`, `lastFailure = 0`, closed. -/
def BreakerState.init : BreakerState := ⟨0, 0, false⟩

/-- Message of the error thrown by `check()` while the circuit is open. -/
def circuitOpenMsg (retryAfterSec : Int) : String :=
  "Circuit breaker open: too many failures. Retry after " ++ toString retryAfterSec ++ "s"

/-- Translation of `CircuitBreaker.check` (src/src/permissions.ts, lines 127-142),
with the mutation made explicit: returns the post-state and the outcome.
`Math.ceil(x / 1000)` is `(x + 999).ediv 1000`. -/
def CircuitBreaker.check (cfg : BreakerConfig) (now : Int) (s : BreakerState) :
    BreakerState × Except String Unit :=
  if !s.isOpen then (s, .ok ())
  else if now - s.lastFailure > cfg.cooldownMs then
    ({ s with isOpen := false, failures := 0 }, .ok ())
  else
    (s, .error (circuitOpenMsg ((cfg.cooldownMs - (now - s.lastFailure) + 999).ediv 1000)))

/-- Translation of `CircuitBreaker.success` (src/src/permissions.ts, lines 147-152). -/
def CircuitBreaker.success (s : BreakerState) : BreakerState :=
  if s.failures > 0 then { s with failures := s.failures - 1 } else s

/-- Translation of `CircuitBreaker.failure` (src/src/permissions.ts, lines 157-174):
resets the counter when the previous failure is older than the reset window,
then increments, stamps `lastFailure`, and opens at the threshold. -/
def CircuitBreaker.failure (cfg : BreakerConfig) (now : Int) (s : BreakerState) :
    BreakerState :=
  let f0 := if now - s.lastFailure > cfg.resetTimeMs then 0 else s.failures
  let f := f0 + 1
  { failures := f
    lastFailure := now
    isOpen := if f ≥ cfg.threshold then true else s.isOpen }

/-- One externally visible breaker call, with its `Date.now()` value where the
method reads the clock. -/
inductive BreakerEvent
  | check (now : Int)
  | success
  | failure (now : Int)

/-- State transition of one breaker call (the outcome of `check` is discarded). -/
def breakerStep (cfg : BreakerConfig) (s : BreakerState) : BreakerEvent → BreakerState
  | .check now => (CircuitBreaker.check cfg now s).1
  | .success => CircuitBreaker.success s
  | .failure now => CircuitBreaker.failure cfg now s

/-- State reached from the initial state after a sequence of breaker calls. -/
def breakerRun (cfg : BreakerConfig) (evs : List BreakerEvent) : BreakerState :=
  evs.foldl (breakerStep cfg) BreakerState.init

/-- JavaScript falsiness of an optional string: `undefined` or the empty string. -/
def jsFalsyStr : Option String → Bool
  | none => true
  | some s => s == ""

/-- Model of JavaScript `parseInt(s, 10)`: skip leading whitespace, optional
sign, then the leading run of decimal digits; `none` models `NaN`. -/
def jsParseInt (s : String) : Option Int :=
  let cs := s.data.dropWhile Char.isWhitespace
  let signed : Int × List Char :=
    match cs with
    | '-' :: rest => (-1, rest)
    | '+' :: rest => (1, rest)
    | _ => (1, cs)
  let ds := signed.2.takeWhile Char.isDigit
  if ds.isEmpty then none
  else some (signed.1 * (ds.foldl (fun a c => a * 10 + (c.toNat - '0'.toNat)) 0 : Nat))

/-- The `RateLimitInfo` interface; `none` in a field models `NaN` (and an
invalid `Date` for `reset_at`). `reset_at` is epoch milliseconds. -/
structure RateLimitInfo where
  remaining : Option Int
  limit : Option Int
  reset_at : Option Int

/-- Translation of `parseRateLimitHeaders` (src/src/permissions.ts, lines 186-200).
The header record is a lookup function from header name to optional value. -/
def parseRateLimitHeaders (headers : String → Option String) : Option RateLimitInfo :=
  let remaining := headers "x-ratelimit-remaining"
  let limit := headers "x-ratelimit-limit"
  let reset := headers "x-ratelimit-reset"
  if jsFalsyStr remaining || jsFalsyStr limit || jsFalsyStr reset then none
  else
    some { remaining := jsParseInt (remaining.getD "")
           limit := jsParseInt (limit.getD "")
           reset_at := (jsParseInt (reset.getD "")).map (fun x => x * 1000) }

/-- Settled outcome of the race inside `withTimeout` (src/src/permissions.ts,
lines 95-108): either the wrapped promise settles first (resolved or rejected),
or the timer fires first. -/
inductive RaceOutcome (T : Type)
  | opResolved (v : T)
  | opRejected (e : String)
  | timedOut

/-- The message of the rejection produced on timer expiry:
`message || "Operation timed out after <ms>ms"`, where an empty caller message
is falsy and falls back to the default. -/
def timeoutErrorMsg (ms : Int) (message : Option String) : String :=
  if jsFalsyStr message then "Operation timed out after " ++ toString ms ++ "ms"
  else message.getD ""

/-- Translation of `withTimeout`: maps the winner of `Promise.race` to the
settled result of the returned promise. -/
def withTimeout (T : Type) (outcome : RaceOutcome T) (ms : Int)
    (message : Option String) : Except String T :=
  match outcome with
  | .opResolved v => .ok v
  | .opRejected e => .error e
  | .timedOut => .error (timeoutErrorMsg ms message)

/-- A config with a whitelist entry but no bypass, for concrete checks. -/
def whitelistOnlyConfig : Config :=
  ⟨false, ⟨true, false, false, false, ["acme/web"], []⟩⟩

/-- A config whose blacklist wildcard overlaps its whitelist entry. -/
def blackOverWhiteConfig : Config :=
  ⟨false, ⟨true, false, false, false, ["acme/web"], ["acme/*"]⟩⟩

/-- A config running with the bypass flag set. -/
def bypassConfig : Config :=
  ⟨true, ⟨false, false, false, false, [], []⟩⟩

/-- Headers of the worked rate-limit example. -/
def sampleHeaders : String → Option String := fun name =>
  if name = "x-ratelimit-remaining" then some "4892"
  else if name = "x-ratelimit-limit" then some "5000"
  else if name = "x-ratelimit-reset" then some "1700000000"
  else none

/-- The same headers with `x-ratelimit-remaining` missing. -/
def sampleHeadersNoRemaining : String → Option String := fun name =>
  if name = "x-ratelimit-limit" then some "5000"
  else if name = "x-ratelimit-reset" then some "1700000000"
  else none

instance (s : String) : Decidable (noSlash s) :=
  inferInstanceAs (Decidable (∀ c ∈ s.data, c ≠ '/'))

theorem strData_append (s t : String) : (s ++ t).data = s.data ++ t.data := rfl

theorem splitSlash_append (a b : List Char) (h : ∀ c ∈ a, c ≠ '/') :
    splitSlash (a ++ '/' :: b) = a :: splitSlash b := by
  induction a with
  | nil => simp [splitSlash]
  | cons c cs ih =>
    have hc : ¬(c = '/') := h c (List.mem_cons_self c cs)
    have ih' := ih fun x hx => h x (List.mem_cons_of_mem c hx)
    simp [splitSlash, hc, ih']

theorem splitSlash_no_slash (a : List Char) (h : ∀ c ∈ a, c ≠ '/') :
    splitSlash a = [a] := by
  induction a with
  | nil => rfl
  | cons c cs ih =>
    have hc : ¬(c = '/') := h c (List.mem_cons_self c cs)
    have ih' := ih fun x hx => h x (List.mem_cons_of_mem c hx)
    simp [splitSlash, hc, ih']

theorem jsSplit_two (o n : String) (ho : noSlash o) (hn : noSlash n) :
    jsSplit (o ++ "/" ++ n) = [o, n] := by
  have hdata : (o ++ "/" ++ n).data = o.data ++ '/' :: n.data := by
    simp [strData_append]
  unfold jsSplit
  rw [hdata, splitSlash_append o.data n.data ho, splitSlash_no_slash n.data hn]
  rfl

theorem jsSplit_deep (o n rest : String) (ho : noSlash o) (hn : noSlash n) :
    jsSplit (o ++ "/" ++ n ++ "/" ++ rest)
      = o :: n :: (splitSlash rest.data).map String.mk := by
  have hdata : (o ++ "/" ++ n ++ "/" ++ rest).data
      = o.data ++ '/' :: (n.data ++ '/' :: rest.data) := by
    simp [strData_append]
  unfold jsSplit
  rw [hdata, splitSlash_append _ _ ho, splitSlash_append _ _ hn]
  rfl

/-- C3: for every well-formed resource `owner/name` (owner and name non-empty,
slash-free) and every pattern, `matchesAny` with that single pattern matches
exactly when the pattern equals the resource, or the pattern's second segment
is `*` and its first equals the owner, or its first segment is `*` and its
second equals the name; `matchesAny` over a list holds iff some pattern
matches, and the empty pattern list yields false. -/
theorem matches_characterization :
    ∀ (o n p : String), noSlash o → noSlash n → o ≠ "" → n ≠ "" →
    (matchesAny (o ++ "/" ++ n) [p] = true ↔
      (p = o ++ "/" ++ n
       ∨ ((jsSplit p)[1]? = some "*" ∧ (jsSplit p)[0]? = some o)
       ∨ ((jsSplit p)[0]? = some "*" ∧ (jsSplit p)[1]? = some n)))
    ∧ (∀ ps : List String,
        matchesAny (o ++ "/" ++ n) ps = true ↔
          ∃ q ∈ ps, matchesAny (o ++ "/" ++ n) [q] = true)
    ∧ matchesAny (o ++ "/" ++ n) [] = false := by
  intro o n p ho hn _ _
  have hs := jsSplit_two o n ho hn
  refine ⟨?_, ?_, ?_⟩
  · simp [matchesAny, hs, or_assoc]
  · intro ps
    simp [matchesAny, hs, List.any_eq_true]
  · simp [matchesAny]

/-- Witness for C3 at the spec's four worked examples. -/
theorem matches_characterization_witness :
    matchesAny ("acme" ++ "/" ++ "web") ["acme/*"] = true
    ∧ matchesAny ("acme" ++ "/" ++ "web") ["*/web"] = true
    ∧ matchesAny ("acme" ++ "/" ++ "web") ["other/*"] = false
    ∧ matchesAny ("acme" ++ "/" ++ "web") ["*/other"] = false :=
  ⟨(matches_characterization "acme" "web" "acme/*"
      (by decide) (by decide) (by decide) (by decide)).1.mpr (by decide),
   (matches_characterization "acme" "web" "*/web"
      (by decide) (by decide) (by decide) (by decide)).1.mpr (by decide),
   by decide, by decide⟩

/-- C1: `checkRepoAccess` decides with short-circuiting precedence: bypass
allows unconditionally; otherwise a non-empty blacklist with a match denies
with the blacklist reason regardless of the whitelist; otherwise an empty
whitelist allows; otherwise it allows iff some whitelist pattern matches and
denies with the not-in-whitelist reason otherwise. -/
theorem checkRepoAccess_precedence :
    ∀ (cfg : Config) (repo : String),
    (cfg.bypass_permissions = true → checkRepoAccess cfg repo = Except.ok ())
    ∧ (cfg.bypass_permissions = false →
        cfg.permissions.blacklist_repos ≠ [] →
        matchesAny repo cfg.permissions.blacklist_repos = true →
        checkRepoAccess cfg repo = Except.error (blacklistedMsg repo))
    ∧ (cfg.bypass_permissions = false →
        (cfg.permissions.blacklist_repos = []
         ∨ matchesAny repo cfg.permissions.blacklist_repos = false) →
        cfg.permissions.whitelist_repos = [] →
        checkRepoAccess cfg repo = Except.ok ())
    ∧ (cfg.bypass_permissions = false →
        (cfg.permissions.blacklist_repos = []
         ∨ matchesAny repo cfg.permissions.blacklist_repos = false) →
        cfg.permissions.whitelist_repos ≠ [] →
        (checkRepoAccess cfg repo = Except.ok ()
           ↔ matchesAny repo cfg.permissions.whitelist_repos = true)
        ∧ (matchesAny repo cfg.permissions.whitelist_repos = false →
            checkRepoAccess cfg repo = Except.error (notWhitelistedMsg repo))) := by
  intro cfg repo
  refine ⟨fun hb => by simp [checkRepoAccess, hb], fun hb hbl hm => ?_, fun hb hbl hw => ?_,
    fun hb hbl hw => ?_⟩
  · have : 0 < cfg.permissions.blacklist_repos.length := List.length_pos.mpr hbl
    simp [checkRepoAccess, hb, hm, this]
  · rcases hbl with h | h <;>
      simp [checkRepoAccess, hb, h, hw]
  · have hw' : cfg.permissions.whitelist_repos.length ≠ 0 := by
      simpa [List.length_eq_zero] using hw
    rcases hbl with h | h <;>
      constructor <;>
        simp [checkRepoAccess, hb, h, hw']

/-- Witness for C1: in `blackOverWhiteConfig` the resource matches the
whitelist entry exactly, yet the blacklist wildcard denies it. -/
theorem checkRepoAccess_precedence_witness :
    checkRepoAccess blackOverWhiteConfig "acme/web"
      = Except.error (blacklistedMsg "acme/web")
    ∧ matchesAny "acme/web" blackOverWhiteConfig.permissions.whitelist_repos = true :=
  ⟨(checkRepoAccess_precedence blackOverWhiteConfig "acme/web").2.1
      rfl (by decide) (by decide),
   by decide⟩

/-- C6: `checkPermission` allows a level iff the bypass flag is set or that
level's own flag is true, and denies with the permission-denied reason iff the
bypass flag is unset and the flag is false; the levels are independent — a
config can allow `admin` while denying `trigger`. -/
theorem checkPermission_levels :
    (∀ (cfg : Config) (level : PermissionLevel),
      (checkPermission cfg level = Except.ok ()
         ↔ (cfg.bypass_permissions = true ∨ cfg.permissions.flag level = true))
      ∧ (checkPermission cfg level = Except.error (permissionDeniedMsg level)
         ↔ (cfg.bypass_permissions = false ∧ cfg.permissions.flag level = false)))
    ∧ (∃ cfg : Config,
        cfg.permissions.admin = true
        ∧ checkPermission cfg PermissionLevel.admin = Except.ok ()
        ∧ checkPermission cfg PermissionLevel.trigger
            = Except.error (permissionDeniedMsg PermissionLevel.trigger)) := by
  constructor
  · intro cfg level
    cases hb : cfg.bypass_permissions <;>
      cases hf : cfg.permissions.flag level <;>
        simp [checkPermission, hb, hf]
  · exact ⟨⟨false, ⟨false, false, false, true, [], []⟩⟩, rfl, rfl, rfl⟩

theorem success_isOpen (s : BreakerState) :
    (CircuitBreaker.success s).isOpen = s.isOpen := by
  unfold CircuitBreaker.success
  split <;> rfl

theorem success_lastFailure (s : BreakerState) :
    (CircuitBreaker.success s).lastFailure = s.lastFailure := by
  unfold CircuitBreaker.success
  split <;> rfl

theorem success_failures (s : BreakerState) :
    (CircuitBreaker.success s).failures = s.failures - 1 := by
  unfold CircuitBreaker.success
  split <;> simp_all

theorem failure_fields (cfg : BreakerConfig) (now : Int) (s : BreakerState) :
    (CircuitBreaker.failure cfg now s).lastFailure = now
    ∧ (CircuitBreaker.failure cfg now s).failures
        = (if now - s.lastFailure > cfg.resetTimeMs then 0 else s.failures) + 1
    ∧ (CircuitBreaker.failure cfg now s).isOpen
        = (if cfg.threshold ≤ (CircuitBreaker.failure cfg now s).failures then true
           else s.isOpen) :=
  ⟨rfl, rfl, rfl⟩

theorem check_closed (cfg : BreakerConfig) (now : Int) (s : BreakerState)
    (h : s.isOpen = false) : CircuitBreaker.check cfg now s = (s, Except.ok ()) := by
  unfold CircuitBreaker.check
  simp [h]

theorem check_open_elapsed (cfg : BreakerConfig) (now : Int) (s : BreakerState)
    (h : s.isOpen = true) (hc : cfg.cooldownMs < now - s.lastFailure) :
    CircuitBreaker.check cfg now s
      = ({ s with isOpen := false, failures := 0 }, Except.ok ()) := by
  unfold CircuitBreaker.check
  simp [h, hc]

theorem check_open_cooling (cfg : BreakerConfig) (now : Int) (s : BreakerState)
    (h : s.isOpen = true) (hc : ¬ cfg.cooldownMs < now - s.lastFailure) :
    CircuitBreaker.check cfg now s
      = (s, Except.error (circuitOpenMsg
          ((cfg.cooldownMs - (now - s.lastFailure) + 999).ediv 1000))) := by
  unfold CircuitBreaker.check
  simp [h, hc]

/-- C7: one `success()` call decrements `failures` by at most one — by exactly
one when it is positive, staying at zero otherwise — and leaves `isOpen` and
`lastFailure` untouched; in particular it never closes an open circuit. -/
theorem success_decrement_frame :
    ∀ s : BreakerState,
    (CircuitBreaker.success s).failures ≤ s.failures
    ∧ s.failures ≤ (CircuitBreaker.success s).failures + 1
    ∧ (0 < s.failures → (CircuitBreaker.success s).failures = s.failures - 1)
    ∧ (s.failures = 0 → (CircuitBreaker.success s).failures = 0)
    ∧ (CircuitBreaker.success s).isOpen = s.isOpen
    ∧ (CircuitBreaker.success s).lastFailure = s.lastFailure := by
  intro s
  have h := success_failures s
  exact ⟨by omega, by omega, fun h0 => by omega, fun h0 => by omega,
    success_isOpen s, success_lastFailure s⟩

/-- Witness for C7 on an open breaker with three recorded failures. -/
theorem success_decrement_frame_witness :
    (CircuitBreaker.success (BreakerState.mk 3 5 true)).failures = 3 - 1
    ∧ (CircuitBreaker.success (BreakerState.mk 3 5 true)).isOpen = true :=
  ⟨(success_decrement_frame (BreakerState.mk 3 5 true)).2.2.1 (by decide),
   (success_decrement_frame (BreakerState.mk 3 5 true)).2.2.2.2.1⟩

/-- Counterexample to C2: after three `failure()` calls (circuit opens) and one
`success()`, the reachable state has `isOpen = true` with `failures = 2`,
strictly below the threshold 3 — so open does not imply
`failureCount ≥ threshold`. -/
theorem breaker_open_invariant_counterexample :
    (breakerRun defaultBreakerConfig
      [BreakerEvent.failure 0, BreakerEvent.failure 0, BreakerEvent.failure 0,
       BreakerEvent.success]).isOpen = true
    ∧ (breakerRun defaultBreakerConfig
        [BreakerEvent.failure 0, BreakerEvent.failure 0, BreakerEvent.failure 0,
         BreakerEvent.success]).failures = 2
    ∧ defaultBreakerConfig.threshold = 3 := by
  decide

/-- C2 amended: the circuit only becomes open through a `failure()` call whose
post-count reaches the threshold (afterwards `success()` may erode the count
below the threshold while the circuit stays open), and the Open→Closed
transition is atomic: whenever a `check()` call closes an open circuit it also
resets `failures` to zero and returns success in that same step, which happens
exactly when `now - lastFailure` strictly exceeds the cooldown. -/
theorem breaker_open_invariant_amended :
    ∀ (cfg : BreakerConfig) (s : BreakerState),
    (∀ e : BreakerEvent, s.isOpen = false → (breakerStep cfg s e).isOpen = true →
      ∃ now, e = BreakerEvent.failure now
        ∧ cfg.threshold ≤ (breakerStep cfg s e).failures)
    ∧ (∀ now : Int, s.isOpen = true →
        (CircuitBreaker.check cfg now s).1.isOpen = false →
        (CircuitBreaker.check cfg now s).1.failures = 0
        ∧ (CircuitBreaker.check cfg now s).2 = Except.ok ()
        ∧ cfg.cooldownMs < now - s.lastFailure) := by
  intro cfg s
  constructor
  · intro e h0 h1
    cases e with
    | check now =>
      rw [breakerStep, check_closed cfg now s h0] at h1
      exact absurd (h0 ▸ h1) (by simp)
    | success =>
      rw [breakerStep, success_isOpen s, h0] at h1
      exact absurd h1 (by simp)
    | failure now =>
      refine ⟨now, rfl, ?_⟩
      have hiso := (failure_fields cfg now s).2.2
      rw [breakerStep] at h1 ⊢
      rw [hiso, h0] at h1
      by_cases hth : cfg.threshold ≤ (CircuitBreaker.failure cfg now s).failures
      · exact hth
      · rw [if_neg hth] at h1
        exact absurd h1 (by simp)
  · intro now h1 h2
    by_cases hc : cfg.cooldownMs < now - s.lastFailure
    · rw [check_open_elapsed cfg now s h1 hc]
      exact ⟨rfl, rfl, hc⟩
    · rw [check_open_cooling cfg now s h1 hc] at h2
      exact absurd (h2 ▸ h1) (by simp)

/-- Witness for C2 amended: a lapsed open breaker is closed and zeroed by one
`check()`, and a third failure from two opens the circuit at the threshold. -/
theorem breaker_open_invariant_amended_witness :
    (CircuitBreaker.check defaultBreakerConfig 300001 (BreakerState.mk 3 0 true)).1.failures = 0
    ∧ defaultBreakerConfig.threshold
        ≤ (breakerStep defaultBreakerConfig (BreakerState.mk 2 0 false)
            (BreakerEvent.failure 0)).failures := by
  refine ⟨((breaker_open_invariant_amended defaultBreakerConfig
      (BreakerState.mk 3 0 true)).2 300001 rfl (by decide)).1, ?_⟩
  obtain ⟨now, -, h⟩ := (breaker_open_invariant_amended defaultBreakerConfig
      (BreakerState.mk 2 0 false)).1 (BreakerEvent.failure 0) rfl (by decide)
  exact h

/-- Counterexample to C4: after three failures at time 0 the circuit is open
with `lastFailure = 0`; a `check()` at `now = 300000` satisfies
`now - lastFailureAt ≥ cooldown` (the elapsed time equals the cooldown), yet
the breaker stays open with `failures = 3` and `check()` fails with the
circuit-open error instead of succeeding with `failures = 0`. -/
theorem breaker_transitions_counterexample :
    (breakerRun defaultBreakerConfig
      [BreakerEvent.failure 0, BreakerEvent.failure 0, BreakerEvent.failure 0]).isOpen
      = true
    ∧ defaultBreakerConfig.cooldownMs
        ≤ 300000 - (breakerRun defaultBreakerConfig
            [BreakerEvent.failure 0, BreakerEvent.failure 0,
             BreakerEvent.failure 0]).lastFailure
    ∧ (CircuitBreaker.check defaultBreakerConfig 300000
        (breakerRun defaultBreakerConfig
          [BreakerEvent.failure 0, BreakerEvent.failure 0,
           BreakerEvent.failure 0])).1.isOpen = true
    ∧ (CircuitBreaker.check defaultBreakerConfig 300000
        (breakerRun defaultBreakerConfig
          [BreakerEvent.failure 0, BreakerEvent.failure 0,
           BreakerEvent.failure 0])).1.failures = 3
    ∧ (CircuitBreaker.check defaultBreakerConfig 300000
        (breakerRun defaultBreakerConfig
          [BreakerEvent.failure 0, BreakerEvent.failure 0,
           BreakerEvent.failure 0])).2 = Except.error (circuitOpenMsg 0) :=
  ⟨by decide, by decide, by decide, by decide, rfl⟩

/-- C4 amended: from a closed state, a step opens the circuit exactly when it
is a `failure()` whose post-count reaches the threshold (three consecutive
failures at any fixed time do so for threshold 3 and a non-negative reset
window); while open, a `check()` with `now - lastFailure < cooldown` fails
fast with the circuit-open error; and the lazy Open→Closed reset happens on a
`check()` with `now - lastFailure` strictly greater than the cooldown, which
flips the state to closed with `failures = 0` and succeeds. -/
theorem breaker_transitions_amended :
    ∀ (cfg : BreakerConfig) (s : BreakerState),
    (s.isOpen = false → ∀ e : BreakerEvent,
      ((breakerStep cfg s e).isOpen = true ↔
        ∃ now, e = BreakerEvent.failure now
          ∧ cfg.threshold ≤ (CircuitBreaker.failure cfg now s).failures))
    ∧ (∀ now : Int, s.isOpen = true → now - s.lastFailure < cfg.cooldownMs →
        CircuitBreaker.check cfg now s
          = (s, Except.error (circuitOpenMsg
              ((cfg.cooldownMs - (now - s.lastFailure) + 999).ediv 1000))))
    ∧ (∀ now : Int, s.isOpen = true → cfg.cooldownMs < now - s.lastFailure →
        CircuitBreaker.check cfg now s
          = ({ s with isOpen := false, failures := 0 }, Except.ok ()))
    ∧ (∀ t resetW cool : Int, 0 ≤ resetW →
        (breakerRun ⟨3, resetW, cool⟩
          [BreakerEvent.failure t, BreakerEvent.failure t,
           BreakerEvent.failure t]).isOpen = true) := by
  intro cfg s
  refine ⟨fun h0 e => ?_, fun now h1 hc => ?_, fun now h1 hc => ?_,
    fun t resetW cool hr => ?_⟩
  · constructor
    · intro h1
      cases e with
      | check now =>
        rw [breakerStep, check_closed cfg now s h0] at h1
        exact absurd (h0 ▸ h1) (by simp)
      | success =>
        rw [breakerStep, success_isOpen s, h0] at h1
        exact absurd h1 (by simp)
      | failure now =>
        refine ⟨now, rfl, ?_⟩
        have hiso := (failure_fields cfg now s).2.2
        rw [breakerStep, hiso, h0] at h1
        by_cases hth : cfg.threshold ≤ (CircuitBreaker.failure cfg now s).failures
        · exact hth
        · rw [if_neg hth] at h1
          exact absurd h1 (by simp)
    · rintro ⟨now, rfl, hth⟩
      have hiso := (failure_fields cfg now s).2.2
      rw [breakerStep, hiso, if_pos hth]
  · exact check_open_cooling cfg now s h1 (by omega)
  · exact check_open_elapsed cfg now s h1 hc
  · have h2 : ¬ (resetW < 0) := by omega
    simp only [breakerRun, List.foldl_cons, List.foldl_nil, breakerStep,
      CircuitBreaker.failure, BreakerState.init]
    simp [h2, sub_self]

/-- Witness for C4 amended: three failures at time 0 open the default breaker;
a check at 300001 ms (strictly past the cooldown) closes it with success. -/
theorem breaker_transitions_amended_witness :
    (breakerRun ⟨3, (60000 : Int), (300000 : Int)⟩
      [BreakerEvent.failure 0, BreakerEvent.failure 0, BreakerEvent.failure 0]).isOpen
      = true
    ∧ CircuitBreaker.check defaultBreakerConfig 300001 (BreakerState.mk 3 0 true)
        = (BreakerState.mk 0 0 false, Except.ok ()) :=
  ⟨(breaker_transitions_amended defaultBreakerConfig BreakerState.init).2.2.2
      0 60000 300000 (by decide),
   (breaker_transitions_amended defaultBreakerConfig (BreakerState.mk 3 0 true)).2.2.1
      300001 rfl (by decide)⟩

/-- Counterexample to C5: the handlers run `checkRepoAccess` before
`parseRepo`, so the malformed resource `no-slash-here` is evaluated against
the whitelist patterns first and denied as "not in the whitelist" — a silent
non-match — rather than failing with the invalid-format error. -/
theorem malformed_resource_counterexample :
    toolGuard whitelistOnlyConfig PermissionLevel.read "no-slash-here"
      = Except.error (notWhitelistedMsg "no-slash-here")
    ∧ notWhitelistedMsg "no-slash-here" ≠ invalidRepoMsg "no-slash-here" :=
  ⟨rfl, by decide⟩

/-- C5 amended: a resource without the `/` separator always fails `parseRepo`
with the invalid-format error, but only after `checkRepoAccess` has evaluated
the patterns: a pattern-based denial preempts the malformed failure, and the
malformed failure surfaces exactly when the access check allowed the
resource. -/
theorem malformed_resource_amended :
    ∀ (cfg : Config) (level : PermissionLevel) (repo : String),
    (noSlash repo → parseRepo repo = Except.error (invalidRepoMsg repo))
    ∧ (∀ m : String, checkPermission cfg level = Except.ok () →
        checkRepoAccess cfg repo = Except.error m →
        toolGuard cfg level repo = Except.error m)
    ∧ (checkPermission cfg level = Except.ok () →
        checkRepoAccess cfg repo = Except.ok () → noSlash repo →
        toolGuard cfg level repo = Except.error (invalidRepoMsg repo)) := by
  intro cfg level repo
  have hparse : noSlash repo → parseRepo repo = Except.error (invalidRepoMsg repo) := by
    intro h
    have hsp : splitSlash repo.data = [repo.data] := splitSlash_no_slash repo.data h
    unfold parseRepo jsSplit
    rw [hsp]
    rfl
  refine ⟨hparse, fun m hp hr => ?_, fun hp hr hns => ?_⟩
  · unfold toolGuard
    rw [hp, hr]
  · unfold toolGuard
    rw [hp, hr, hparse hns]

/-- Witness for C5 amended: under the bypass config both guards allow, and the
slash-free resource then fails with the invalid-format error. -/
theorem malformed_resource_amended_witness :
    toolGuard bypassConfig PermissionLevel.read "no-slash-here"
      = Except.error (invalidRepoMsg "no-slash-here") :=
  (malformed_resource_amended bypassConfig PermissionLevel.read "no-slash-here").2.2
    rfl rfl (by decide)

/-- Counterexample to C10: the resource `a//b` contains two `/` separators,
yet `parseRepo` raises the invalid-format error because its second
`/`-separated segment is empty (falsy). -/
theorem deep_resource_counterexample :
    ("a//b".data.count '/') = 2
    ∧ parseRepo "a//b" = Except.error (invalidRepoMsg "a//b") :=
  ⟨by decide, rfl⟩

/-- C10 amended: for a resource with two or more `/` separators whose first
two segments are non-empty, `parseRepo` succeeds (no malformed failure) with
exactly those two segments, an owner wildcard and a name wildcard built from
them match, and pattern evaluation depends only on those two segments apart
from exact whole-string equality. -/
theorem deep_resource_amended :
    ∀ (o n rest : String), noSlash o → noSlash n → o ≠ "" → n ≠ "" →
    parseRepo (o ++ "/" ++ n ++ "/" ++ rest) = Except.ok (o, n)
    ∧ matchesAny (o ++ "/" ++ n ++ "/" ++ rest) [o ++ "/*"] = true
    ∧ matchesAny (o ++ "/" ++ n ++ "/" ++ rest) ["*/" ++ n] = true
    ∧ (∀ p : String,
        matchesAny (o ++ "/" ++ n ++ "/" ++ rest) [p] = true ↔
          (p = o ++ "/" ++ n ++ "/" ++ rest
           ∨ ((jsSplit p)[1]? = some "*" ∧ (jsSplit p)[0]? = some o)
           ∨ ((jsSplit p)[0]? = some "*" ∧ (jsSplit p)[1]? = some n))) := by
  intro o n rest ho hn ho' hn'
  have hdeep := jsSplit_deep o n rest ho hn
  have hbo : (o == "") = false := beq_eq_false_iff_ne.mpr ho'
  have hbn : (n == "") = false := beq_eq_false_iff_ne.mpr hn'
  have hw1 : jsSplit (o ++ "/*") = [o, "*"] := by
    have hx : o ++ "/*" = o ++ "/" ++ "*" := by
      apply String.ext
      simp
    rw [hx]
    exact jsSplit_two o "*" ho (by decide)
  have hw2 : jsSplit ("*/" ++ n) = ["*", n] := by
    have hx : "*/" ++ n = "*" ++ "/" ++ n := by
      apply String.ext
      simp
    rw [hx]
    exact jsSplit_two "*" n (by decide) hn
  refine ⟨?_, ?_, ?_, fun p => ?_⟩
  · simp [parseRepo, hdeep, hbo, hbn]
  · simp [matchesAny, hdeep, hw1]
  · simp [matchesAny, hdeep, hw2]
  · simp [matchesAny, hdeep, or_assoc]

/-- Witness for C10 amended at `acme/web/extra`. -/
theorem deep_resource_amended_witness :
    parseRepo ("acme" ++ "/" ++ "web" ++ "/" ++ "extra") = Except.ok ("acme", "web")
    ∧ matchesAny ("acme" ++ "/" ++ "web" ++ "/" ++ "extra") ["acme" ++ "/*"] = true
    ∧ matchesAny ("acme" ++ "/" ++ "web" ++ "/" ++ "extra") ["*/" ++ "web"] = true :=
  ⟨(deep_resource_amended "acme" "web" "extra"
      (by decide) (by decide) (by decide) (by decide)).1,
   (deep_resource_amended "acme" "web" "extra"
      (by decide) (by decide) (by decide) (by decide)).2.1,
   (deep_resource_amended "acme" "web" "extra"
      (by decide) (by decide) (by decide) (by decide)).2.2.1⟩

/-- C8: the rate limit parser returns no data whenever any of the three
required headers is missing, and, when all three are present with non-empty
values, returns a snapshot whose `remaining` and `limit` are the parsed
integers of the header values and whose `reset_at` is the parsed epoch-seconds
value converted to epoch milliseconds. -/
theorem parseRateLimitHeaders_spec :
    ∀ headers : String → Option String,
    ((headers "x-ratelimit-remaining" = none ∨ headers "x-ratelimit-limit" = none
      ∨ headers "x-ratelimit-reset" = none) →
      parseRateLimitHeaders headers = none)
    ∧ (∀ r l t : String,
        headers "x-ratelimit-remaining" = some r →
        headers "x-ratelimit-limit" = some l →
        headers "x-ratelimit-reset" = some t →
        r ≠ "" → l ≠ "" → t ≠ "" →
        parseRateLimitHeaders headers
          = some { remaining := jsParseInt r, limit := jsParseInt l,
                   reset_at := (jsParseInt t).map (fun x => x * 1000) }) := by
  intro headers
  constructor
  · intro h
    rcases h with h | h | h <;> simp [parseRateLimitHeaders, h, jsFalsyStr]
  · intro r l t hr hl ht hr' hl' ht'
    have h1 : jsFalsyStr (some r) = false := by
      simpa [jsFalsyStr] using hr'
    have h2 : jsFalsyStr (some l) = false := by
      simpa [jsFalsyStr] using hl'
    have h3 : jsFalsyStr (some t) = false := by
      simpa [jsFalsyStr] using ht'
    simp [parseRateLimitHeaders, hr, hl, ht, h1, h2, h3]

/-- Witness for C8: the worked example headers parse to 4892/5000 with a
converted timestamp, and headers missing `remaining` give no data. -/
theorem parseRateLimitHeaders_spec_witness :
    parseRateLimitHeaders sampleHeaders
      = some { remaining := jsParseInt "4892", limit := jsParseInt "5000",
               reset_at := (jsParseInt "1700000000").map (fun x => x * 1000) }
    ∧ jsParseInt "4892" = some 4892
    ∧ jsParseInt "5000" = some 5000
    ∧ parseRateLimitHeaders sampleHeadersNoRemaining = none :=
  ⟨(parseRateLimitHeaders_spec sampleHeaders).2 "4892" "5000" "1700000000"
      rfl rfl rfl (by decide) (by decide) (by decide),
   by decide, by decide,
   (parseRateLimitHeaders_spec sampleHeadersNoRemaining).1 (Or.inl rfl)⟩

/-- Counterexample to C9: with a caller-supplied message the timeout rejection
is the message alone — two different bounds (100 and 999) produce identical
errors, so the error does not carry the elapsed bound — and it coincides
exactly with the rejection the wrapped operation itself could produce, so no
failure-kind distinction exists. -/
theorem withTimeout_error_counterexample :
    timeoutErrorMsg 100 (some "boom") = timeoutErrorMsg 999 (some "boom")
    ∧ withTimeout Unit RaceOutcome.timedOut 100 (some "boom")
        = withTimeout Unit (RaceOutcome.opRejected "boom") 100 (some "boom") :=
  ⟨rfl, rfl⟩

/-- C9 amended: on timer expiry `withTimeout` rejects with a plain error whose
message is the caller-supplied message when that is non-empty, and otherwise
the default message embedding the bound in milliseconds; the operation's own
settlement passes through unchanged, so a timeout is distinguishable from an
operation failure only by the message text. -/
theorem withTimeout_error_amended :
    ∀ (ms : Int) (msg : Option String) (m e : String) (v : Unit),
    withTimeout Unit RaceOutcome.timedOut ms msg
      = Except.error (timeoutErrorMsg ms msg)
    ∧ timeoutErrorMsg ms none = "Operation timed out after " ++ toString ms ++ "ms"
    ∧ (m ≠ "" → timeoutErrorMsg ms (some m) = m)
    ∧ timeoutErrorMsg ms (some "") = "Operation timed out after " ++ toString ms ++ "ms"
    ∧ withTimeout Unit (RaceOutcome.opResolved v) ms msg = Except.ok v
    ∧ withTimeout Unit (RaceOutcome.opRejected e) ms msg = Except.error e := by
  intro ms msg m e v
  refine ⟨rfl, rfl, fun hm => ?_, rfl, rfl, rfl⟩
  simp [timeoutErrorMsg, jsFalsyStr, hm]

/-- Witness for C9 amended: a non-empty caller message is passed through. -/
theorem withTimeout_error_amended_witness :
    timeoutErrorMsg 100 (some "custom") = "custom" :=
  (withTimeout_error_amended 100 (some "custom") "custom" "" ()).2.2.1 (by decide)

end GhaMcp
